import Mathlib

/-!
Shallow embedding of the Mercury bank API client
(src/mercury_api/api_client.py and src/mercury_api/transactions_data_models.py).

The HTTP transport is an external collaborator: each client operation is
modelled by the request records it hands to the transport together with the
pure state transformation it performs on the account cache.  In the Python
source, `accounts` is a class attribute holding one mutable list that every
instance reads and mutates in place and never rebinds, so the cache is a
single piece of state shared by all client instances; it is threaded through
the operations explicitly here.  Parsed JSON responses are supplied as
already-typed records (the oracle argument named net), and amounts that the
source types as floating point numbers are carried as integers because no
operation performs arithmetic on them.
-/

namespace Mercury

/-- Python str.replace restricted to character lists: every non-overlapping
occurrence of the pattern is replaced from left to right, and scanning
resumes after each replacement.  This matches Python semantics whenever the
pattern is non-empty, which is the only way the client uses it. -/
def pyReplaceList (pat rep : List Char) : List Char → List Char
  | [] => []
  | c :: cs =>
    if pat ≠ [] ∧ pat.isPrefixOf (c :: cs) then
      rep ++ pyReplaceList pat rep (List.drop (pat.length - 1) cs)
    else
      c :: pyReplaceList pat rep cs
termination_by l => l.length
decreasing_by
  · simp only [List.length_cons, List.length_drop]
    omega
  · simp only [List.length_cons]
    omega

/-- Python str.replace lifted to String. -/
def pyReplace (s pat rep : String) : String :=
  String.mk (pyReplaceList pat.toList rep.toList s.toList)

/-- The character of a single decimal digit. -/
def digitChar (n : Nat) : Char :=
  match n with
  | 0 => '0' | 1 => '1' | 2 => '2' | 3 => '3' | 4 => '4'
  | 5 => '5' | 6 => '6' | 7 => '7' | 8 => '8' | _ => '9'

/-- Decimal digits of a natural number, most significant first. -/
def natDigits (n : Nat) : List Char :=
  if n < 10 then [digitChar n]
  else natDigits (n / 10) ++ [digitChar (n % 10)]
termination_by n
decreasing_by
  exact Nat.div_lt_self (by omega) (by omega)

/-- Left-pad a digit string with zeros to the given width. -/
def padZeros (w : Nat) (l : List Char) : List Char :=
  List.replicate (w - l.length) '0' ++ l

/-- A calendar date as passed to get_transactions and get_statements. -/
structure Date where
  year : Nat
  month : Nat
  day : Nat
deriving DecidableEq

/-- Python str(date): the ISO format YYYY-MM-DD with zero padding. -/
def Date.toString (d : Date) : String :=
  String.mk (padZeros 4 (natDigits d.year) ++
    '-' :: (padZeros 2 (natDigits d.month) ++ '-' :: padZeros 2 (natDigits d.day)))

/-- transactions_data_models.Account.  The source types availableBalance and
currentBalance as floats and createdAt as a datetime; they are carried here as
an integer and a string since the client never computes with them.  The
status and type fields are string literals drawn from closed sets in the
source (active/deleted/pending/archived and mercury/external/recipient). -/
structure Account where
  accountNumber : String
  availableBalance : Int
  createdAt : String
  currentBalance : Int
  id : String
  kind : String
  name : String
  routingNumber : String
  status : String
  type : String
  legalBusinessName : String
  dashboardLink : String
  canReceiveTransactions : Option Bool := none
  nickname : Option String := none
deriving DecidableEq

/-- transactions_data_models.AccountsResponse: the parsed JSON body of
GET /api/v1/accounts, whose accounts key holds the account array. -/
structure AccountsResponse where
  accounts : List Account
deriving DecidableEq

/-- transactions_data_models.TransactionParams with the source defaults
(limit 500, offset 0, the rest absent).  The end field is written «end»
because end is a reserved word in Lean. -/
structure TransactionParams where
  limit : Int := 500
  offset : Int := 0
  status : Option String := none
  start : Option Date := none
  «end» : Option Date := none
  search : Option String := none
deriving DecidableEq

/-- transactions_data_models.NewTransactionPayload, field order as declared:
recipientId, amount, idempotencyKey, paymentMethod (default "ach"),
note, externalMemo.  amount is a float in the source, carried as an
integer here since no arithmetic is performed on it. -/
structure NewTransactionPayload where
  recipientId : String
  amount : Int
  idempotencyKey : String
  paymentMethod : String := "ach"
  note : Option String := none
  externalMemo : Option String := none
deriving DecidableEq

/-- transactions_data_models.TransactionApprovalRequest. -/
structure TransactionApprovalRequest where
  accountId : String
  requestId : String
  recipientId : String
  memo : Option String
  paymentMethod : String
  amount : Int
  status : String
deriving DecidableEq

/-- The field names of transactions_data_models.Transaction, in declaration
order.  None of them has a default value in the source, so a keyword
construction Transaction(**d) requires exactly these keys. -/
def Transaction.fieldNames : List String :=
  ["amount", "bankDescription", "counterpartyId", "counterpartyName",
   "counterpartyNickname", "createdAt", "dashboardLink", "details",
   "estimatedDeliveryDate", "failedAt", "id", "kind", "note", "externalMemo",
   "postedAt", "reasonForFailure", "status", "feeId", "currencyExchangeInfo",
   "compliantWithReceiptPolicy", "hasGeneratedReceipt", "creditAccountPeriodId",
   "mercuryCategory", "generalLedgerCodeName", "attachments"]

/-- The field names of TransactionApprovalRequest, in declaration order; none
has a default value in the source. -/
def TransactionApprovalRequest.fieldNames : List String :=
  ["accountId", "requestId", "recipientId", "memo", "paymentMethod",
   "amount", "status"]

/-- Whether a Python keyword construction Cls(**d) succeeds: every key of d
names a declared field (no unexpected keyword argument) and every field
without a default receives a key (no missing required argument). -/
def pyKwargsAccepted (fieldNames requiredNames keys : List String) : Bool :=
  keys.all (fun k => fieldNames.contains k) &&
    requiredNames.all (fun k => keys.contains k)

/-- A Python value as it appears in a JSON request body. -/
inductive PyVal where
  | str (s : String)
  | int (i : Int)
  | none
deriving DecidableEq

/-- An optional string field of a dataclass, as stored in its dictionary. -/
def optToPyVal : Option String → PyVal
  | some s => PyVal.str s
  | Option.none => PyVal.none

/-- payload.dict for a NewTransactionPayload: the fields in declaration
order, absent optional fields stored as None (null), nothing renamed and
nothing omitted. -/
def NewTransactionPayload.toDict (p : NewTransactionPayload) : List (String × PyVal) :=
  [("recipientId", PyVal.str p.recipientId),
   ("amount", PyVal.int p.amount),
   ("idempotencyKey", PyVal.str p.idempotencyKey),
   ("paymentMethod", PyVal.str p.paymentMethod),
   ("note", optToPyVal p.note),
   ("externalMemo", optToPyVal p.externalMemo)]

/-- One HTTP request as handed to the transport collaborator. -/
structure HttpRequest where
  method : String
  url : String
  headers : List (String × String)
  body : Option (List (String × PyVal))
  timeout : Nat
deriving DecidableEq

/-- api_client.MercuryApiClient: the per-instance state set by init.
The account cache is deliberately not a field: in the source it is a class
attribute shared by every instance (see the module comment), so it is
threaded through the operations as an explicit state argument. -/
structure MercuryApiClient where
  _token : String
  base_url : String
deriving DecidableEq

/-- MercuryApiClient.init: stores the token, and the base URL when one is
given, the production host otherwise.  It does not touch the account cache. -/
def MercuryApiClient.init (token : String) (base_url : Option String) : MercuryApiClient :=
  { _token := token, base_url := base_url.getD "https://api.mercury.com" }

/-- MercuryApiClient._make_request: builds the Authorization and accept
headers, returns the GET request directly for request_type get, and for POST
first raises ValueError (the local validation error of the spec) when the
payload is missing or its dictionary is empty, before any request reaches
the transport; otherwise the body is the payload dictionary verbatim. -/
def _make_request (token url : String) (timeout : Nat) (request_type : String)
    (payload : Option NewTransactionPayload) : Except String HttpRequest :=
  let headers := [("Authorization", "Bearer " ++ token), ("accept", "application/json")]
  if request_type = "get" then
    Except.ok ⟨"get", url, headers, Option.none, timeout⟩
  else
    match payload with
    | Option.none =>
        Except.error "Payload is required for POST requests and cannot be empty."
    | some p =>
        if p.toDict.isEmpty then
          Except.error "Payload is required for POST requests and cannot be empty."
        else
          Except.ok ⟨"post", url, headers, some p.toDict, timeout⟩

/-- MercuryApiClient.get_accounts: returns the cache untouched when it is
non-empty; otherwise issues GET base_url/api/v1/accounts (timeout 10, the
default), appends every account of the parsed accounts array to the cache
and returns it.  Result: (returned accounts, cache afterwards, requests
issued). -/
def get_accounts (c : MercuryApiClient) (cache : List Account)
    (net : AccountsResponse) : List Account × List Account × List HttpRequest :=
  if cache.length > 0 then (cache, cache, [])
  else
    match _make_request c._token (c.base_url ++ "/api/v1/accounts") 10 "get" Option.none with
    | Except.error _ => (cache, cache, [])
    | Except.ok req =>
        let accounts := cache ++ net.accounts
        (accounts, accounts, [req])

/-- MercuryApiClient.get_account_by_id: populates the cache through
get_accounts when it is empty, answers None when even then no account
exists, and otherwise scans the cache for the first account whose id
matches, None when there is none.  Result: (found account, cache
afterwards, requests issued). -/
def get_account_by_id (c : MercuryApiClient) (cache : List Account)
    (net : AccountsResponse) (account_id : String) :
    Option Account × List Account × List HttpRequest :=
  if cache.length = 0 then
    let s := get_accounts c cache net
    if s.1.length = 0 then (Option.none, s.2.1, s.2.2)
    else (s.2.1.find? (fun a => a.id == account_id), s.2.1, s.2.2)
  else (cache.find? (fun a => a.id == account_id), cache, [])

/-- The request issued by MercuryApiClient.get_cards. -/
def get_cards_request (c : MercuryApiClient) (account_id : String) :
    Except String HttpRequest :=
  _make_request c._token (c.base_url ++ "/api/v1/account/" ++ account_id ++ "/cards")
    10 "get" Option.none

/-- One query parameter value of get_transactions, with Python truthiness
and Python string formatting. -/
inductive QVal where
  | int (i : Int)
  | ostr (s : Option String)
  | odate (d : Option Date)

/-- Python truthiness of a query value: a number is truthy when non-zero, a
string when non-empty, an absent value never, a date always. -/
def QVal.truthy : QVal → Bool
  | .int i => !(i == 0)
  | .ostr (some s) => !(s == "")
  | .ostr Option.none => false
  | .odate d => d.isSome

/-- Python string interpolation of a query value; only ever used on truthy
values, where the optional layers are present. -/
def QVal.format : QVal → String
  | .int i => ToString.toString i
  | .ostr (some s) => s
  | .ostr Option.none => "None"
  | .odate (some d) => d.toString
  | .odate Option.none => "None"

/-- The URL built by MercuryApiClient.get_transactions: starting from
.../transactions?, every truthy parameter is appended as &key=value in the
fixed dictionary order limit, offset, status, start, end, search, and then
the substring ?& is replaced by ? over the whole URL. -/
def get_transactions_url (c : MercuryApiClient) (account_id : String)
    (params : TransactionParams) : String :=
  let url := c.base_url ++ "/api/v1/account/" ++ account_id ++ "/transactions?"
  let query_params : List (String × QVal) :=
    [("limit", QVal.int params.limit),
     ("offset", QVal.int params.offset),
     ("status", QVal.ostr params.status),
     ("start", QVal.odate params.start),
     ("end", QVal.odate params.«end»),
     ("search", QVal.ostr params.search)]
  let url := query_params.foldl
    (fun u kv => if kv.2.truthy then u ++ "&" ++ kv.1 ++ "=" ++ kv.2.format else u) url
  pyReplace url "?&" "?"

/-- The request issued by MercuryApiClient.get_transactions. -/
def get_transactions_request (c : MercuryApiClient) (account_id : String)
    (params : TransactionParams) : Except String HttpRequest :=
  _make_request c._token (get_transactions_url c account_id params) 10 "get" Option.none

/-- The request issued by MercuryApiClient.get_transaction_by_id. -/
def get_transaction_by_id_request (c : MercuryApiClient)
    (account_id transaction_id : String) : Except String HttpRequest :=
  _make_request c._token
    (c.base_url ++ "/api/v1/account/" ++ account_id ++ "/transaction/" ++ transaction_id)
    10 "get" Option.none

/-- The URL built by MercuryApiClient.get_statements: starting from
.../statements?, &start=date and &end=date are appended when present, the
substring ?& is replaced by ?, and when neither date is given every ? is
removed from the URL. -/
def get_statements_url (c : MercuryApiClient) (account_id : String)
    (start «end» : Option Date) : String :=
  let url := c.base_url ++ "/api/v1/account/" ++ account_id ++ "/statements?"
  let url := match start with
    | some s => url ++ "&start=" ++ s.toString
    | Option.none => url
  let url := match «end» with
    | some e => url ++ "&end=" ++ e.toString
    | Option.none => url
  let url := pyReplace url "?&" "?"
  if start.isNone ∧ «end».isNone then pyReplace url "?" "" else url

/-- The request issued by MercuryApiClient.get_statements. -/
def get_statements_request (c : MercuryApiClient) (account_id : String)
    (start «end» : Option Date) : Except String HttpRequest :=
  _make_request c._token (get_statements_url c account_id start «end») 10 "get" Option.none

/-- MercuryApiClient.create_transaction up to the transport boundary: the
POST request it hands to the transport, or the local validation error. -/
def create_transaction (c : MercuryApiClient) (account_id : String)
    (transaction : Option NewTransactionPayload) : Except String HttpRequest :=
  _make_request c._token
    (c.base_url ++ "/api/v1/account/" ++ account_id ++ "/transactions")
    10 "post" transaction

/-- MercuryApiClient.request_send_money up to the transport boundary: the
POST request it hands to the transport, or the local validation error. -/
def request_send_money (c : MercuryApiClient) (account_id : String)
    (transaction : Option NewTransactionPayload) : Except String HttpRequest :=
  _make_request c._token
    (c.base_url ++ "/api/v1/account/" ++ account_id ++ "/send_money")
    10 "post" transaction

/-- The final line of request_send_money runs Transaction(**response): this
is whether that keyword construction accepts a response whose keys are the
given list (Transaction has no field defaults, so all 25 fields are
required). -/
def request_send_money_parse_ok (responseKeys : List String) : Bool :=
  pyKwargsAccepted Transaction.fieldNames Transaction.fieldNames responseKeys

/-- The key set of a well-formed send-money response, carrying exactly the
TransactionApprovalRequest field set. -/
def approvalResponseKeys : List String :=
  ["accountId", "requestId", "recipientId", "amount", "paymentMethod",
   "memo", "status"]

/-- Concatenation of a list of strings, used by the specification-side
description of the query string builder. -/
def strConcat : List String → String
  | [] => ""
  | s :: rest => s ++ strConcat rest

/-- Modelled from the claim wording for get_transactions: the query string
consists of exactly the parameters whose value is truthy, in the fixed order
limit, offset, status, start, end, search, each rendered as &key=value and
concatenated after the ?, after which the substring ?& is replaced by ?. -/
def spec_get_transactions_url (c : MercuryApiClient) (account_id : String)
    (params : TransactionParams) : String :=
  let query_params : List (String × QVal) :=
    [("limit", QVal.int params.limit),
     ("offset", QVal.int params.offset),
     ("status", QVal.ostr params.status),
     ("start", QVal.odate params.start),
     ("end", QVal.odate params.«end»),
     ("search", QVal.ostr params.search)]
  let present := query_params.filter (fun kv => kv.2.truthy)
  let qs := strConcat (present.map (fun kv => "&" ++ kv.1 ++ "=" ++ kv.2.format))
  pyReplace (c.base_url ++ "/api/v1/account/" ++ account_id ++ "/transactions?" ++ qs)
    "?&" "?"

/-- A concrete account used by the closed instances below. -/
def sampleAccount : Account :=
  { accountNumber := "1", availableBalance := 0, createdAt := "2024-10-12T23:37:37Z",
    currentBalance := 0, id := "1", kind := "savings", name := "Test Account 1",
    routingNumber := "123456789", status := "active", type := "mercury",
    legalBusinessName := "Test 1",
    dashboardLink := "https://app.mercury.com/accounts/depository/1" }

/-- A concrete client used by the closed instances below. -/
def clientW : MercuryApiClient := MercuryApiClient.init "tok" Option.none

/-- A concrete payload used by the closed instances below. -/
def payloadW : NewTransactionPayload :=
  { recipientId := "r1", amount := 50, idempotencyKey := "k1" }

/-- The concrete request of the first accounts fetch of clientW, used by the
closed instances below. -/
def reqW : HttpRequest :=
  ⟨"get", "https://api.mercury.com/api/v1/accounts",
   [("Authorization", "Bearer tok"), ("accept", "application/json")],
   Option.none, 10⟩

/-- Whether a string ends with the given suffix. -/
def strEndsWith (s suffix : String) : Bool :=
  suffix.toList.isSuffixOf s.toList

/-! String infrastructure lemmas. -/

theorem strExt {s t : String} (h : s.toList = t.toList) : s = t := by
  cases s
  cases t
  exact congrArg String.mk h

theorem toList_append (s t : String) : (s ++ t).toList = s.toList ++ t.toList := by
  cases s
  cases t
  rfl

theorem toList_mk (l : List Char) : (String.mk l).toList = l := rfl

theorem str_append_assoc (a b c : String) : a ++ b ++ c = a ++ (b ++ c) := by
  apply strExt
  simp [toList_append]

theorem str_append_empty (s : String) : s ++ "" = s := by
  apply strExt
  simp [toList_append]

theorem toList_pyReplace (s pat rep : String) :
    (pyReplace s pat rep).toList = pyReplaceList pat.toList rep.toList s.toList := rfl

theorem pyReplaceList_nil (pat rep : List Char) : pyReplaceList pat rep [] = [] := by
  rw [pyReplaceList]

/-- The step of pyReplaceList on a head that does not start a match. -/
theorem pyReplaceList_cons_no_match {pat : List Char} (rep : List Char) {c : Char}
    {cs : List Char} (h : pat.isPrefixOf (c :: cs) = false) :
    pyReplaceList pat rep (c :: cs) = c :: pyReplaceList pat rep cs := by
  rw [pyReplaceList, if_neg]
  intro hcond
  rw [hcond.2] at h
  exact Bool.noConfusion h

/-- A pattern that begins with ? cannot match at a head other than ?. -/
theorem isPrefixOf_q_false {c : Char} (cs rest : List Char) (hc : c ≠ '?') :
    ('?' :: rest).isPrefixOf (c :: cs) = false := by
  simp [List.isPrefixOf]
  exact fun hq => absurd hq.symm hc

/-- If the pattern ?& does not start anywhere in a question-mark-free list,
the replacement leaves it unchanged. -/
theorem pyReplaceList_qamp_no_q {l : List Char} (h : '?' ∉ l) :
    pyReplaceList ['?', '&'] ['?'] l = l := by
  induction l with
  | nil => exact pyReplaceList_nil _ _
  | cons c cs ih =>
    have hc : c ≠ '?' := fun hc => h (hc ▸ List.mem_cons_self c cs)
    rw [pyReplaceList_cons_no_match _ (isPrefixOf_q_false cs ['&'] hc)]
    rw [ih (fun hm => h (List.mem_cons_of_mem c hm))]

/-- Replacing ?& by ? when the list is a question-mark-free part followed by
a single trailing question mark leaves the list unchanged. -/
theorem pyReplaceList_qamp_trailing {a : List Char} (h : '?' ∉ a) :
    pyReplaceList ['?', '&'] ['?'] (a ++ ['?']) = a ++ ['?'] := by
  induction a with
  | nil =>
    rw [List.nil_append]
    rw [pyReplaceList_cons_no_match _ (by simp [List.isPrefixOf])]
    rw [pyReplaceList_nil]
  | cons c cs ih =>
    have hc : c ≠ '?' := fun hc => h (hc ▸ List.mem_cons_self c cs)
    rw [List.cons_append]
    rw [pyReplaceList_cons_no_match _ (isPrefixOf_q_false _ ['&'] hc)]
    rw [ih (fun hm => h (List.mem_cons_of_mem c hm))]

/-- Replacing ?& by ? in a question-mark-free prefix, then the junction
? followed by &, then a tail: the junction collapses to a single ? and
scanning continues on the tail. -/
theorem pyReplaceList_qamp_junction {a : List Char} (b : List Char) (h : '?' ∉ a) :
    pyReplaceList ['?', '&'] ['?'] (a ++ '?' :: '&' :: b)
      = a ++ '?' :: pyReplaceList ['?', '&'] ['?'] b := by
  induction a with
  | nil =>
    rw [List.nil_append, pyReplaceList, if_pos (by simp [List.isPrefixOf])]
    simp [List.drop]
  | cons c cs ih =>
    have hc : c ≠ '?' := fun hc => h (hc ▸ List.mem_cons_self c cs)
    rw [List.cons_append]
    rw [pyReplaceList_cons_no_match _ (isPrefixOf_q_false _ ['&'] hc)]
    rw [ih (fun hm => h (List.mem_cons_of_mem c hm))]
    rfl

/-- Removing every ? from a question-mark-free part followed by one trailing
question mark yields the part alone. -/
theorem pyReplaceList_strip_q {a : List Char} (h : '?' ∉ a) :
    pyReplaceList ['?'] [] (a ++ ['?']) = a := by
  induction a with
  | nil =>
    rw [List.nil_append, pyReplaceList, if_pos (by simp [List.isPrefixOf])]
    simp [List.drop, pyReplaceList_nil]
  | cons c cs ih =>
    have hc : c ≠ '?' := fun hc => h (hc ▸ List.mem_cons_self c cs)
    rw [List.cons_append]
    rw [pyReplaceList_cons_no_match _ (isPrefixOf_q_false _ [] hc)]
    rw [ih (fun hm => h (List.mem_cons_of_mem c hm))]

theorem digitChar_mem (k : Nat) :
    digitChar k ∈ ['0', '1', '2', '3', '4', '5', '6', '7', '8', '9'] := by
  unfold digitChar
  split <;> decide

theorem mem_natDigits {c : Char} : ∀ {n : Nat}, c ∈ natDigits n →
    c ∈ ['0', '1', '2', '3', '4', '5', '6', '7', '8', '9'] := by
  intro n
  induction n using Nat.strong_induction_on with
  | _ n ih =>
    intro h
    rw [natDigits] at h
    split at h
    · rw [List.mem_singleton] at h
      exact h ▸ digitChar_mem n
    · rcases List.mem_append.mp h with h1 | h2
      · exact ih (n / 10) (Nat.div_lt_self (by omega) (by omega)) h1
      · rw [List.mem_singleton] at h2
        exact h2 ▸ digitChar_mem (n % 10)

theorem q_not_mem_date (d : Date) : '?' ∉ (Date.toString d).toList := by
  intro h
  rw [Date.toString, toList_mk] at h
  have hd : ∀ l, '?' ∈ padZeros 2 l → '?' ∈ l := by
    intro l hl
    rcases List.mem_append.mp hl with h1 | h1
    · exact absurd (List.eq_of_mem_replicate h1) (by decide)
    · exact h1
  rcases List.mem_append.mp h with h1 | h1
  · rcases List.mem_append.mp h1 with h2 | h2
    · exact absurd (List.eq_of_mem_replicate h2) (by decide)
    · exact absurd (mem_natDigits h2) (by decide)
  · rcases List.mem_cons.mp h1 with h2 | h2
    · exact absurd h2 (by decide)
    · rcases List.mem_append.mp h2 with h3 | h3
      · exact absurd (mem_natDigits (hd _ h3)) (by decide)
      · rcases List.mem_cons.mp h3 with h4 | h4
        · exact absurd h4 (by decide)
        · exact absurd (mem_natDigits (hd _ h4)) (by decide)

/-- String-level form: replacing ?& in a question-mark-free string followed
by a lone trailing ? changes nothing. -/
theorem pyReplace_qamp_trailing {s : String} (h : '?' ∉ s.toList) :
    pyReplace (s ++ "?") "?&" "?" = s ++ "?" := by
  apply strExt
  rw [toList_pyReplace, toList_append]
  exact pyReplaceList_qamp_trailing h

/-- String-level form: removing every ? from a question-mark-free string
followed by a lone trailing ? yields the string alone. -/
theorem pyReplace_strip_q {s : String} (h : '?' ∉ s.toList) :
    pyReplace (s ++ "?") "?" "" = s := by
  apply strExt
  rw [toList_pyReplace, toList_append]
  exact pyReplaceList_strip_q h

/-- String-level form: with a question mark only at the junction, replacing
?& by ? collapses the junction and leaves prefix and tail intact. -/
theorem pyReplace_qamp_junction {s t : String} (hs : '?' ∉ s.toList)
    (ht : '?' ∉ t.toList) :
    pyReplace (s ++ "?" ++ "&" ++ t) "?&" "?" = s ++ "?" ++ t := by
  apply strExt
  rw [toList_pyReplace]
  rw [toList_append, toList_append, toList_append, toList_append, toList_append]
  have h1 : (("?" : String)).toList = ['?'] := rfl
  have h2 : (("&" : String)).toList = ['&'] := rfl
  rw [h1, h2, List.append_assoc, List.append_assoc]
  have h3 : (("?&" : String)).toList = ['?', '&'] := rfl
  have : ['?'] ++ (['&'] ++ t.toList) = '?' :: '&' :: t.toList := rfl
  rw [this, h3, pyReplaceList_qamp_junction _ hs, pyReplaceList_qamp_no_q ht]
  simp

theorem q_not_mem_str_append {s t : String} (hs : '?' ∉ s.toList)
    (ht : '?' ∉ t.toList) : '?' ∉ (s ++ t).toList := by
  rw [toList_append]
  intro h
  rcases List.mem_append.mp h with h | h
  · exact hs h
  · exact ht h

/-! Cache behaviour helpers. -/

theorem get_accounts_returns_cache (c : MercuryApiClient) (cache : List Account)
    (net : AccountsResponse) :
    (get_accounts c cache net).1 = (get_accounts c cache net).2.1 := by
  unfold get_accounts
  split
  · rfl
  · split
    · rfl
    · rfl

theorem get_accounts_nonempty_cache (c : MercuryApiClient) {cache : List Account}
    (net : AccountsResponse) (h : cache ≠ []) :
    get_accounts c cache net = (cache, cache, []) := by
  have hlen := List.length_pos.mpr h
  simp [get_accounts, hlen]

theorem get_accounts_empty_cache (c : MercuryApiClient) (net : AccountsResponse) :
    get_accounts c [] net
      = (net.accounts, net.accounts,
         [⟨"get", c.base_url ++ "/api/v1/accounts",
           [("Authorization", "Bearer " ++ c._token), ("accept", "application/json")],
           Option.none, 10⟩]) := by
  simp [get_accounts, _make_request]

/-- C1 (counterexample): the claim predicts that a fresh client instance,
constructed after another instance has already fetched accounts, still finds
an empty cache and issues a network request.  In the code the cache is a
class attribute shared by all instances, so at this concrete input the fresh
instance issues zero requests and returns the accounts fetched by the first
instance. -/
theorem account_cache_shared_counterexample :
    (get_accounts (MercuryApiClient.init "token-two" Option.none)
        (get_accounts (MercuryApiClient.init "token-one" Option.none) [] ⟨[sampleAccount]⟩).2.1
        ⟨[sampleAccount]⟩).2.2.length = 0 ∧
    (get_accounts (MercuryApiClient.init "token-two" Option.none)
        (get_accounts (MercuryApiClient.init "token-one" Option.none) [] ⟨[sampleAccount]⟩).2.1
        ⟨[sampleAccount]⟩).1 = [sampleAccount] ∧
    (get_accounts (MercuryApiClient.init "token-one" Option.none) [] ⟨[sampleAccount]⟩).2.2.length = 1 := by
  decide

/-- C1 (amended): the account cache is class-level state shared by every
client instance.  Construction never resets it; the first get_accounts of
the process issues one network request and populates the shared cache, after
which a freshly constructed client returns the shared cache with zero
network requests. -/
theorem account_cache_shared (t1 t2 : String) (b1 b2 : Option String)
    (net net2 : AccountsResponse) (h : net.accounts ≠ []) :
    (get_accounts (MercuryApiClient.init t1 b1) [] net).2.2.length = 1 ∧
    get_accounts (MercuryApiClient.init t2 b2)
        (get_accounts (MercuryApiClient.init t1 b1) [] net).2.1 net2
      = ((get_accounts (MercuryApiClient.init t1 b1) [] net).2.1,
         (get_accounts (MercuryApiClient.init t1 b1) [] net).2.1, []) := by
  rw [get_accounts_empty_cache]
  constructor
  · rfl
  · exact get_accounts_nonempty_cache _ _ (by simpa using h)

theorem account_cache_shared_witness :
    (get_accounts (MercuryApiClient.init "token-one" Option.none) [] ⟨[sampleAccount]⟩).2.2.length = 1 ∧
    get_accounts (MercuryApiClient.init "token-two" Option.none)
        (get_accounts (MercuryApiClient.init "token-one" Option.none) [] ⟨[sampleAccount]⟩).2.1
        ⟨[sampleAccount]⟩
      = ((get_accounts (MercuryApiClient.init "token-one" Option.none) [] ⟨[sampleAccount]⟩).2.1,
         (get_accounts (MercuryApiClient.init "token-one" Option.none) [] ⟨[sampleAccount]⟩).2.1, []) :=
  account_cache_shared "token-one" "token-two" Option.none Option.none
    ⟨[sampleAccount]⟩ ⟨[sampleAccount]⟩ (by decide)

/-- C6 (counterexample): when the accounts array of the response is empty
the cache stays empty, so two successive get_accounts calls each issue a
network request — two calls in total, refuting the at-most-one bound. -/
theorem get_accounts_twice_counterexample :
    (get_accounts clientW [] ⟨[]⟩).2.2.length
      + (get_accounts clientW (get_accounts clientW [] ⟨[]⟩).2.1 ⟨[]⟩).2.2.length = 2 := by
  decide

/-- C6 (amended): a client whose account cache is non-empty gets the cached
list back with zero network calls; two calls in a row make at most one
network call and the second returns the same sequence, provided the first
response's accounts array is non-empty (an empty array leaves the cache
empty and the second call issues another request); when the cache was empty
the returned sequence is exactly the response's accounts array in order. -/
theorem get_accounts_cache_short_circuit (c : MercuryApiClient)
    (cache : List Account) (net : AccountsResponse) :
    (cache ≠ [] → get_accounts c cache net = (cache, cache, [])) ∧
    (net.accounts ≠ [] →
      (get_accounts c cache net).2.2.length
          + (get_accounts c (get_accounts c cache net).2.1 net).2.2.length ≤ 1 ∧
      (get_accounts c (get_accounts c cache net).2.1 net).1 = (get_accounts c cache net).1 ∧
      (cache = [] → (get_accounts c cache net).1 = net.accounts)) := by
  constructor
  · intro hc
    exact get_accounts_nonempty_cache c net hc
  · intro hnet
    by_cases hc : cache = []
    · subst hc
      rw [get_accounts_empty_cache]
      rw [get_accounts_nonempty_cache _ _ hnet]
      simp
    · rw [get_accounts_nonempty_cache c net hc]
      rw [get_accounts_nonempty_cache c net hc]
      simp [hc]

theorem get_accounts_cache_short_circuit_witness :
    get_accounts clientW [sampleAccount] ⟨[sampleAccount]⟩
      = ([sampleAccount], [sampleAccount], []) :=
  (get_accounts_cache_short_circuit clientW [sampleAccount] ⟨[sampleAccount]⟩).1 (by decide)

/-- C7: get_account_by_id answers None exactly when no account of the
(possibly freshly populated) cache has the requested id, and any account it
returns belongs to the cache and has the requested id; modelled as a total
function it raises nothing for a missing id. -/
theorem get_account_by_id_lookup (c : MercuryApiClient) (cache : List Account)
    (net : AccountsResponse) (account_id : String) :
    ((get_account_by_id c cache net account_id).1 = Option.none →
      ∀ a ∈ (get_account_by_id c cache net account_id).2.1, a.id ≠ account_id) ∧
    (∀ a, (get_account_by_id c cache net account_id).1 = some a →
      a ∈ (get_account_by_id c cache net account_id).2.1 ∧ a.id = account_id) := by
  have hfind : ∀ l : List Account,
      ((l.find? (fun a => a.id == account_id) = Option.none →
        ∀ a ∈ l, a.id ≠ account_id) ∧
       (∀ a, l.find? (fun a => a.id == account_id) = some a →
        a ∈ l ∧ a.id = account_id)) := by
    intro l
    constructor
    · intro hn a ha
      have := List.find?_eq_none.mp hn a ha
      simpa using this
    · intro a hf
      exact ⟨List.mem_of_find?_eq_some hf, by simpa using List.find?_some hf⟩
  by_cases h0 : cache.length = 0
  · by_cases h1 : (get_accounts c cache net).1.length = 0
    · have hnil : (get_accounts c cache net).2.1 = [] := by
        rw [← get_accounts_returns_cache]
        exact List.length_eq_zero.mp h1
      simp only [get_account_by_id, if_pos h0, if_pos h1]
      constructor
      · intro _ a ha
        rw [hnil] at ha
        exact absurd ha (List.not_mem_nil a)
      · intro a hf
        exact absurd hf (by simp)
    · simp only [get_account_by_id, if_pos h0, if_neg h1]
      exact hfind _
  · simp only [get_account_by_id, if_neg h0]
    exact hfind cache

theorem get_account_by_id_lookup_witness :
    sampleAccount ∈ (get_account_by_id clientW [sampleAccount] ⟨[]⟩ "1").2.1 ∧
    sampleAccount.id = "1" :=
  (get_account_by_id_lookup clientW [sampleAccount] ⟨[]⟩ "1").2 sampleAccount (by decide)

/-- C2: a POST with a missing payload fails locally with the validation
error before any request record is produced for the transport (an error
result carries no request), and every actual NewTransactionPayload — whose
field dictionary is never empty — passes the local check for both
create_transaction and request_send_money. -/
theorem post_empty_payload_rejected (c : MercuryApiClient) (account_id : String) :
    create_transaction c account_id Option.none
        = Except.error "Payload is required for POST requests and cannot be empty." ∧
    request_send_money c account_id Option.none
        = Except.error "Payload is required for POST requests and cannot be empty." ∧
    ∀ p : NewTransactionPayload,
      p.toDict ≠ [] ∧
      (create_transaction c account_id (some p)).isOk = true ∧
      (request_send_money c account_id (some p)).isOk = true := by
  refine ⟨?_, ?_, ?_⟩
  · simp [create_transaction, _make_request]
  · simp [request_send_money, _make_request]
  · intro p
    refine ⟨by simp [NewTransactionPayload.toDict], ?_, ?_⟩
    · simp [create_transaction, _make_request, NewTransactionPayload.toDict,
        Except.isOk, Except.toBool]
    · simp [request_send_money, _make_request, NewTransactionPayload.toDict,
        Except.isOk, Except.toBool]

/-- C10: the body of every POST issued by create_transaction and
request_send_money is exactly the payload dictionary: the six fields in
declaration order with their source names, and optional fields that are
absent are carried as None rather than omitted. -/
theorem post_body_mirrors_payload (c : MercuryApiClient) (account_id : String)
    (p : NewTransactionPayload) :
    (∀ r, create_transaction c account_id (some p) = Except.ok r →
      r.body = some p.toDict) ∧
    (∀ r, request_send_money c account_id (some p) = Except.ok r →
      r.body = some p.toDict) ∧
    p.toDict.map Prod.fst
      = ["recipientId", "amount", "idempotencyKey", "paymentMethod", "note",
         "externalMemo"] ∧
    (p.note = Option.none → ("note", PyVal.none) ∈ p.toDict) ∧
    (p.externalMemo = Option.none → ("externalMemo", PyVal.none) ∈ p.toDict) := by
  have hcreate : create_transaction c account_id (some p)
      = Except.ok ⟨"post", c.base_url ++ "/api/v1/account/" ++ account_id ++ "/transactions",
          [("Authorization", "Bearer " ++ c._token), ("accept", "application/json")],
          some p.toDict, 10⟩ := by
    simp [create_transaction, _make_request, NewTransactionPayload.toDict]
  have hsend : request_send_money c account_id (some p)
      = Except.ok ⟨"post", c.base_url ++ "/api/v1/account/" ++ account_id ++ "/send_money",
          [("Authorization", "Bearer " ++ c._token), ("accept", "application/json")],
          some p.toDict, 10⟩ := by
    simp [request_send_money, _make_request, NewTransactionPayload.toDict]
  refine ⟨?_, ?_, ?_, ?_, ?_⟩
  · intro r hr
    rw [hcreate] at hr
    injection hr with h
    rw [← h]
  · intro r hr
    rw [hsend] at hr
    injection hr with h
    rw [← h]
  · simp [NewTransactionPayload.toDict]
  · intro h
    simp [NewTransactionPayload.toDict, h, optToPyVal]
  · intro h
    simp [NewTransactionPayload.toDict, h, optToPyVal]

theorem post_body_mirrors_payload_witness :
    payloadW.toDict.map Prod.fst
      = ["recipientId", "amount", "idempotencyKey", "paymentMethod", "note",
         "externalMemo"] ∧
    ("note", PyVal.none) ∈ payloadW.toDict :=
  ⟨(post_body_mirrors_payload clientW "acc1" payloadW).2.2.1,
   (post_body_mirrors_payload clientW "acc1" payloadW).2.2.2.1 rfl⟩

/-- C8: request_send_money does POST to .../send_money, but its final line
constructs a Transaction from the response keywords, not a
TransactionApprovalRequest.  On a well-formed response carrying exactly the
TransactionApprovalRequest field set the Transaction keyword construction is
rejected (unexpected key accountId, and 23 required Transaction fields
missing), while the TransactionApprovalRequest construction the annotation
promises would accept it: the code raises a TypeError instead of returning
the record, contradicting its own return annotation. -/
theorem request_send_money_wrong_result_model :
    request_send_money_parse_ok approvalResponseKeys = false ∧
    pyKwargsAccepted TransactionApprovalRequest.fieldNames
        TransactionApprovalRequest.fieldNames approvalResponseKeys = true ∧
    request_send_money clientW "acc1" (some payloadW)
      = Except.ok ⟨"post", "https://api.mercury.com/api/v1/account/acc1/send_money",
          [("Authorization", "Bearer tok"), ("accept", "application/json")],
          some payloadW.toDict, 10⟩ := by
  refine ⟨by decide, by decide, by rfl⟩

/-! Header and timeout uniformity. -/

theorem make_request_ok_fields {token url : String} {t : Nat} {rt : String}
    {pl : Option NewTransactionPayload} {r : HttpRequest}
    (h : _make_request token url t rt pl = Except.ok r) :
    r.headers = [("Authorization", "Bearer " ++ token), ("accept", "application/json")]
      ∧ r.timeout = t := by
  unfold _make_request at h
  split at h
  · injection h with h
    rw [← h]
    exact ⟨rfl, rfl⟩
  · split at h
    · exact absurd h (by simp)
    · split at h
      · exact absurd h (by simp)
      · injection h with h
        rw [← h]
        exact ⟨rfl, rfl⟩

theorem get_accounts_requests_ok (c : MercuryApiClient) (cache : List Account)
    (net : AccountsResponse) :
    (get_accounts c cache net).2.2.length ≤ 1 ∧
    ∀ r ∈ (get_accounts c cache net).2.2,
      r.headers = [("Authorization", "Bearer " ++ c._token), ("accept", "application/json")]
        ∧ r.timeout = 10 := by
  unfold get_accounts
  split
  · exact ⟨by simp, by simp⟩
  · split
    · exact ⟨by simp, by simp⟩
    · rename_i req heq
      refine ⟨by simp, ?_⟩
      intro r hr
      rw [List.mem_singleton] at hr
      subst hr
      exact make_request_ok_fields heq

theorem get_account_by_id_requests_cases (c : MercuryApiClient) (cache : List Account)
    (net : AccountsResponse) (account_id : String) :
    (get_account_by_id c cache net account_id).2.2 = (get_accounts c cache net).2.2 ∨
    (get_account_by_id c cache net account_id).2.2 = [] := by
  unfold get_account_by_id
  split
  · dsimp only
    split
    · left
      rfl
    · left
      rfl
  · right
    rfl

/-- C9: every request any public operation hands to the transport carries
exactly the Authorization Bearer header with the construction-time token and
the accept application/json header, with the fixed per-call timeout 10 (no
call site overrides the default), and no operation issues more than one
request (no retries). -/
theorem all_requests_uniform (c : MercuryApiClient) (cache : List Account)
    (net : AccountsResponse) (account_id transaction_id : String)
    (params : TransactionParams) (d1 d2 : Option Date)
    (payload : Option NewTransactionPayload) :
    ((get_accounts c cache net).2.2.length ≤ 1 ∧
      ∀ r ∈ (get_accounts c cache net).2.2,
        r.headers = [("Authorization", "Bearer " ++ c._token), ("accept", "application/json")]
          ∧ r.timeout = 10) ∧
    ((get_account_by_id c cache net account_id).2.2.length ≤ 1 ∧
      ∀ r ∈ (get_account_by_id c cache net account_id).2.2,
        r.headers = [("Authorization", "Bearer " ++ c._token), ("accept", "application/json")]
          ∧ r.timeout = 10) ∧
    (∀ r, get_cards_request c account_id = Except.ok r →
      r.headers = [("Authorization", "Bearer " ++ c._token), ("accept", "application/json")]
        ∧ r.timeout = 10) ∧
    (∀ r, get_transactions_request c account_id params = Except.ok r →
      r.headers = [("Authorization", "Bearer " ++ c._token), ("accept", "application/json")]
        ∧ r.timeout = 10) ∧
    (∀ r, get_transaction_by_id_request c account_id transaction_id = Except.ok r →
      r.headers = [("Authorization", "Bearer " ++ c._token), ("accept", "application/json")]
        ∧ r.timeout = 10) ∧
    (∀ r, get_statements_request c account_id d1 d2 = Except.ok r →
      r.headers = [("Authorization", "Bearer " ++ c._token), ("accept", "application/json")]
        ∧ r.timeout = 10) ∧
    (∀ r, create_transaction c account_id payload = Except.ok r →
      r.headers = [("Authorization", "Bearer " ++ c._token), ("accept", "application/json")]
        ∧ r.timeout = 10) ∧
    (∀ r, request_send_money c account_id payload = Except.ok r →
      r.headers = [("Authorization", "Bearer " ++ c._token), ("accept", "application/json")]
        ∧ r.timeout = 10) := by
  refine ⟨get_accounts_requests_ok c cache net, ?_, ?_, ?_, ?_, ?_, ?_, ?_⟩
  · rcases get_account_by_id_requests_cases c cache net account_id with h | h
    · rw [h]
      exact get_accounts_requests_ok c cache net
    · rw [h]
      exact ⟨by simp, by simp⟩
  · intro r h
    exact make_request_ok_fields h
  · intro r h
    exact make_request_ok_fields h
  · intro r h
    exact make_request_ok_fields h
  · intro r h
    exact make_request_ok_fields h
  · intro r h
    exact make_request_ok_fields h
  · intro r h
    exact make_request_ok_fields h

theorem all_requests_uniform_witness :
    reqW.headers = [("Authorization", "Bearer " ++ clientW._token), ("accept", "application/json")]
      ∧ reqW.timeout = 10 :=
  (all_requests_uniform clientW [] ⟨[sampleAccount]⟩ "acc1" "t1"
    {} Option.none Option.none Option.none).1.2 reqW (by decide)

/-! Query string construction. -/

theorem foldl_truthy_eq_strConcat (ps : List (String × QVal)) (u : String) :
    List.foldl (fun u kv => if kv.2.truthy then u ++ "&" ++ kv.1 ++ "=" ++ kv.2.format else u) u ps
      = u ++ strConcat ((ps.filter (fun kv => kv.2.truthy)).map
          (fun kv => "&" ++ kv.1 ++ "=" ++ kv.2.format)) := by
  induction ps generalizing u with
  | nil => simp [strConcat, str_append_empty]
  | cons kv rest ih =>
    rw [List.foldl_cons, ih, List.filter_cons]
    by_cases h : kv.2.truthy = true
    · simp only [h, if_true, List.map_cons]
      simp [strConcat, str_append_assoc]
    · simp [h]

/-- C3: for every client, account id and parameter record, the transactions
URL consists of the fixed prefix and a query string holding exactly the
truthy parameters, in the order limit, offset, status, start, end, search,
each as &key=value, normalized by replacing ?& with ?; at the concrete
input limit 10, offset 0, empty search and no other parameters the URL is
exactly ...transactions?limit=10 with no leading & and no ?&. -/
theorem get_transactions_query_string :
    (∀ (c : MercuryApiClient) (account_id : String) (params : TransactionParams),
      get_transactions_url c account_id params
        = spec_get_transactions_url c account_id params) ∧
    get_transactions_url clientW "acc1"
        ⟨10, 0, Option.none, Option.none, Option.none, some ""⟩
      = "https://api.mercury.com/api/v1/account/acc1/transactions?limit=10" := by
  constructor
  · intro c account_id params
    simp only [get_transactions_url, spec_get_transactions_url]
    rw [foldl_truthy_eq_strConcat]
  · have hstep : get_transactions_url clientW "acc1"
        ⟨10, 0, Option.none, Option.none, Option.none, some ""⟩
        = pyReplace
            ((("https://api.mercury.com/api/v1/account/acc1/transactions" ++ "?") ++ "&")
              ++ "limit=10") "?&" "?" := by
      simp only [get_transactions_url]
      congr 1
    have hjunction := @pyReplace_qamp_junction
      "https://api.mercury.com/api/v1/account/acc1/transactions" "limit=10"
      (by decide) (by decide)
    rw [hstep, hjunction]
    decide

theorem transactions_url_no_truthy (c : MercuryApiClient) (account_id : String)
    (p : TransactionParams)
    (hb : '?' ∉ c.base_url.toList) (ha : '?' ∉ account_id.toList)
    (h1 : QVal.truthy (QVal.int p.limit) = false)
    (h2 : QVal.truthy (QVal.int p.offset) = false)
    (h3 : QVal.truthy (QVal.ostr p.status) = false)
    (h4 : QVal.truthy (QVal.odate p.start) = false)
    (h5 : QVal.truthy (QVal.odate p.«end») = false)
    (h6 : QVal.truthy (QVal.ostr p.search) = false) :
    get_transactions_url c account_id p
      = c.base_url ++ "/api/v1/account/" ++ account_id ++ "/transactions?" := by
  have hX : '?' ∉ ((c.base_url ++ "/api/v1/account/" ++ account_id) ++ "/transactions").toList :=
    q_not_mem_str_append (q_not_mem_str_append (q_not_mem_str_append hb (by decide)) ha)
      (by decide)
  have hsplit : c.base_url ++ "/api/v1/account/" ++ account_id ++ "/transactions?"
      = (c.base_url ++ "/api/v1/account/" ++ account_id ++ "/transactions") ++ "?" := by
    rw [str_append_assoc (c.base_url ++ "/api/v1/account/" ++ account_id) "/transactions" "?",
      show ("/transactions" : String) ++ "?" = "/transactions?" from by decide]
  simp only [get_transactions_url, List.foldl_cons, List.foldl_nil, h1, h2, h3, h4, h5, h6,
    Bool.false_eq_true, if_false]
  rw [hsplit, pyReplace_qamp_trailing hX]

theorem statements_url_none (c : MercuryApiClient) (account_id : String)
    (hb : '?' ∉ c.base_url.toList) (ha : '?' ∉ account_id.toList) :
    get_statements_url c account_id Option.none Option.none
      = c.base_url ++ "/api/v1/account/" ++ account_id ++ "/statements" := by
  have hX : '?' ∉ ((c.base_url ++ "/api/v1/account/" ++ account_id) ++ "/statements").toList :=
    q_not_mem_str_append (q_not_mem_str_append (q_not_mem_str_append hb (by decide)) ha)
      (by decide)
  have hsplit : c.base_url ++ "/api/v1/account/" ++ account_id ++ "/statements?"
      = (c.base_url ++ "/api/v1/account/" ++ account_id ++ "/statements") ++ "?" := by
    rw [str_append_assoc (c.base_url ++ "/api/v1/account/" ++ account_id) "/statements" "?",
      show ("/statements" : String) ++ "?" = "/statements?" from by decide]
  simp only [get_statements_url, Option.isNone_none, eq_self_iff_true, and_self, ite_true]
  rw [hsplit, pyReplace_qamp_trailing hX, pyReplace_strip_q hX]

theorem statements_url_start (c : MercuryApiClient) (account_id : String) (d : Date)
    (hb : '?' ∉ c.base_url.toList) (ha : '?' ∉ account_id.toList) :
    get_statements_url c account_id (some d) Option.none
      = c.base_url ++ "/api/v1/account/" ++ account_id ++ "/statements?start="
          ++ Date.toString d := by
  have hS : '?' ∉ ((c.base_url ++ "/api/v1/account/" ++ account_id) ++ "/statements").toList :=
    q_not_mem_str_append (q_not_mem_str_append (q_not_mem_str_append hb (by decide)) ha)
      (by decide)
  have hT : '?' ∉ (("start=" : String) ++ Date.toString d).toList :=
    q_not_mem_str_append (by decide) (q_not_mem_date d)
  have harg : ((c.base_url ++ "/api/v1/account/" ++ account_id ++ "/statements?") ++ "&start=")
        ++ Date.toString d
      = (((c.base_url ++ "/api/v1/account/" ++ account_id ++ "/statements") ++ "?") ++ "&")
        ++ ("start=" ++ Date.toString d) := by
    apply strExt
    simp only [toList_append]
    rw [show ("/statements?" : String).toList = "/statements".toList ++ [Char.ofNat 63] from by decide,
      show ("&start=" : String).toList = Char.ofNat 38 :: "start=".toList from by decide,
      show ("?" : String).toList = [Char.ofNat 63] from by decide,
      show ("&" : String).toList = [Char.ofNat 38] from by decide]
    simp [List.append_assoc]
  simp only [get_statements_url, Option.isNone_some, Bool.false_eq_true, false_and, ite_false]
  rw [harg, pyReplace_qamp_junction hS hT]
  apply strExt
  simp only [toList_append]
  rw [show ("/statements?start=" : String).toList
      = "/statements".toList ++ Char.ofNat 63 :: "start=".toList from by decide,
    show ("?" : String).toList = [Char.ofNat 63] from by decide]
  simp [List.append_assoc]

theorem statements_url_both (c : MercuryApiClient) (account_id : String) (d1 d2 : Date)
    (hb : '?' ∉ c.base_url.toList) (ha : '?' ∉ account_id.toList) :
    get_statements_url c account_id (some d1) (some d2)
      = c.base_url ++ "/api/v1/account/" ++ account_id ++ "/statements?start="
          ++ Date.toString d1 ++ "&end=" ++ Date.toString d2 := by
  have hS : '?' ∉ ((c.base_url ++ "/api/v1/account/" ++ account_id) ++ "/statements").toList :=
    q_not_mem_str_append (q_not_mem_str_append (q_not_mem_str_append hb (by decide)) ha)
      (by decide)
  have hT : '?' ∉ ((("start=" : String) ++ Date.toString d1)
      ++ (("&end=" : String) ++ Date.toString d2)).toList :=
    q_not_mem_str_append (q_not_mem_str_append (by decide) (q_not_mem_date d1))
      (q_not_mem_str_append (by decide) (q_not_mem_date d2))
  have harg : ((((c.base_url ++ "/api/v1/account/" ++ account_id ++ "/statements?")
        ++ "&start=") ++ Date.toString d1) ++ "&end=") ++ Date.toString d2
      = (((c.base_url ++ "/api/v1/account/" ++ account_id ++ "/statements") ++ "?") ++ "&")
        ++ (("start=" ++ Date.toString d1) ++ ("&end=" ++ Date.toString d2)) := by
    apply strExt
    simp only [toList_append]
    rw [show ("/statements?" : String).toList = "/statements".toList ++ [Char.ofNat 63] from by decide,
      show ("&start=" : String).toList = Char.ofNat 38 :: "start=".toList from by decide,
      show ("?" : String).toList = [Char.ofNat 63] from by decide,
      show ("&" : String).toList = [Char.ofNat 38] from by decide]
    simp [List.append_assoc]
  simp only [get_statements_url, Option.isNone_some, Bool.false_eq_true, false_and, ite_false]
  rw [harg, pyReplace_qamp_junction hS hT]
  apply strExt
  simp only [toList_append]
  rw [show ("/statements?start=" : String).toList
      = "/statements".toList ++ Char.ofNat 63 :: "start=".toList from by decide,
    show ("?" : String).toList = [Char.ofNat 63] from by decide]
  simp [List.append_assoc]

/-- C4 (counterexample): with every candidate query parameter falsy,
get_transactions does not strip the bare question mark: its URL ends in a
trailing ?, refuting the claim that the ? is stripped for transaction
listing just as for statement retrieval. -/
theorem get_transactions_keeps_trailing_qmark :
    get_transactions_url clientW "acc1"
        ⟨0, 0, Option.none, Option.none, Option.none, Option.none⟩
      = "https://api.mercury.com/api/v1/account/acc1/transactions?" ∧
    strEndsWith "https://api.mercury.com/api/v1/account/acc1/transactions?" "?" = true := by
  constructor
  · have hmain := transactions_url_no_truthy clientW "acc1"
      ⟨0, 0, Option.none, Option.none, Option.none, Option.none⟩ (by decide) (by decide)
      (by decide) (by decide) (by decide) (by decide) (by decide) (by decide)
    rw [hmain]
    decide
  · decide

/-- C4 (amended): only get_statements strips the bare question mark when no
query parameter is present; get_transactions keeps the trailing ? on its
URL whenever every candidate parameter is falsy. -/
theorem bare_qmark_stripped_only_for_statements (c : MercuryApiClient)
    (account_id : String) (p : TransactionParams)
    (hb : '?' ∉ c.base_url.toList) (ha : '?' ∉ account_id.toList)
    (h1 : QVal.truthy (QVal.int p.limit) = false)
    (h2 : QVal.truthy (QVal.int p.offset) = false)
    (h3 : QVal.truthy (QVal.ostr p.status) = false)
    (h4 : QVal.truthy (QVal.odate p.start) = false)
    (h5 : QVal.truthy (QVal.odate p.«end») = false)
    (h6 : QVal.truthy (QVal.ostr p.search) = false) :
    get_statements_url c account_id Option.none Option.none
      = c.base_url ++ "/api/v1/account/" ++ account_id ++ "/statements" ∧
    get_transactions_url c account_id p
      = c.base_url ++ "/api/v1/account/" ++ account_id ++ "/transactions?" :=
  ⟨statements_url_none c account_id hb ha,
   transactions_url_no_truthy c account_id p hb ha h1 h2 h3 h4 h5 h6⟩

theorem bare_qmark_stripped_only_for_statements_witness :
    get_statements_url clientW "acc1" Option.none Option.none
      = clientW.base_url ++ "/api/v1/account/" ++ "acc1" ++ "/statements" ∧
    get_transactions_url clientW "acc1"
        ⟨0, 0, Option.none, Option.none, Option.none, Option.none⟩
      = clientW.base_url ++ "/api/v1/account/" ++ "acc1" ++ "/transactions?" :=
  bare_qmark_stripped_only_for_statements clientW "acc1" _ (by decide) (by decide)
    (by decide) (by decide) (by decide) (by decide) (by decide) (by decide)

/-- C5: for every base URL and account id free of question marks and all
dates, get_statements with neither date yields a URL with no trailing ?,
with only a start date a URL ending in statements?start=date with no &
separator, and with both dates statements?start=date1&end=date2. -/
theorem get_statements_query_string (c : MercuryApiClient) (account_id : String)
    (d1 d2 : Date) (hb : '?' ∉ c.base_url.toList) (ha : '?' ∉ account_id.toList) :
    get_statements_url c account_id Option.none Option.none
      = c.base_url ++ "/api/v1/account/" ++ account_id ++ "/statements" ∧
    get_statements_url c account_id (some d1) Option.none
      = c.base_url ++ "/api/v1/account/" ++ account_id ++ "/statements?start="
          ++ Date.toString d1 ∧
    get_statements_url c account_id (some d1) (some d2)
      = c.base_url ++ "/api/v1/account/" ++ account_id ++ "/statements?start="
          ++ Date.toString d1 ++ "&end=" ++ Date.toString d2 :=
  ⟨statements_url_none c account_id hb ha,
   statements_url_start c account_id d1 hb ha,
   statements_url_both c account_id d1 d2 hb ha⟩

theorem get_statements_query_string_witness :
    get_statements_url clientW "acc1" Option.none Option.none
      = clientW.base_url ++ "/api/v1/account/" ++ "acc1" ++ "/statements" ∧
    get_statements_url clientW "acc1" (some ⟨2023, 1, 1⟩) Option.none
      = clientW.base_url ++ "/api/v1/account/" ++ "acc1" ++ "/statements?start="
          ++ Date.toString ⟨2023, 1, 1⟩ ∧
    get_statements_url clientW "acc1" (some ⟨2023, 1, 1⟩) (some ⟨2023, 1, 31⟩)
      = clientW.base_url ++ "/api/v1/account/" ++ "acc1" ++ "/statements?start="
          ++ Date.toString ⟨2023, 1, 1⟩ ++ "&end=" ++ Date.toString ⟨2023, 1, 31⟩ :=
  get_statements_query_string clientW "acc1" ⟨2023, 1, 1⟩ ⟨2023, 1, 31⟩
    (by decide) (by decide)

end Mercury
